import Mathlib

/-
Verification of the vuex-dash-dpp synchronization plugin (src/vuex-dash-dpp.js).

The development shallowly embeds the plugin's core algorithms:

* `regulatePayload` (source lines 25-55): the payload regulator splitting a
  keyed payload into an in-budget `included` part and a `remainder`, driven by
  two running counters shared across all keys.  The source measures item size
  as `new TextEncoder().encode(JSON.stringify(item)).length / 1024` (a float);
  since division of an integer byte count by 1024 is exact in binary floating
  point, we measure in bytes and compare against `4 * 1024`, which is
  equivalent to the source's `size < 4` comparison in kilobytes.  The byte
  size of an item is an external function (`TextEncoder` + `JSON.stringify`),
  passed as a parameter `sz`.
* `broadcast` (lines 584-615): the recursive batch broadcaster, embedded with
  explicit fuel (`broadcastFuel`); fuel exhaustion (`none`) models divergence.
  The remote broadcast capability is a parameter; returning `false` models
  `client.platform.documents.broadcast` throwing (the source catches the throw
  and returns false).
* `multiple` (lines 474-528), `compose` (458-472), `one` (439-449),
  `all` (411-436), and the two singleton initializers `accountInit` /
  `identityInit` together with the `account` / `identity` getters.

Items and documents are modelled as JavaScript objects: ordered association
lists of string fields, which preserves field insertion order (the order
`keys`/`each` visit fields of a plain JS object with non-numeric keys).
-/

set_option autoImplicit false

universe u v

namespace VuexDashDpp

variable {α : Type} {β : Type}

/-! ## Constants (source lines 21-23) -/

def MAX_DOCUMENTS_PER_QUERY : Nat := 100

def MAX_KILOBYTES_PER_PAYLOAD : Nat := 4

def MAX_DOCUMENTS_PER_PAYLOAD : Nat := 10

/-- The size budget in bytes: the source compares the running kilobyte count
`size` (a sum of exact multiples of `1/1024`) against `MAX_KILOBYTES_PER_PAYLOAD`,
which is equivalent to comparing the running byte count against this constant. -/
def MAX_BYTES_PER_PAYLOAD : Nat := MAX_KILOBYTES_PER_PAYLOAD * 1024

/-! ## Payload regulator (source lines 25-55)

`regulateItems` is the inner `each(items, (item) => ...)` loop over one key's
item list, threading the two outer counters `size` and `limit`; `regulateGo`
is the outer `each(payload, (items, key) => ...)` loop over the keys. -/

/-- State accumulated by the regulator while visiting one key's items:
the `included[key]` and `remainder[key]` lists built so far (in visit order)
and the running cumulative counters `size` (bytes) and `limit` (item count). -/
structure RegAcc (α : Type) where
  inc : List α
  rem : List α
  size : Nat
  limit : Nat
  deriving DecidableEq, Repr

/-- Inner loop of `regulatePayload` over the items of one key.  For each item
the source first updates `size` and `limit`, then appends the item to
`included[key]` iff `size < MAX_KILOBYTES_PER_PAYLOAD && limit <= MAX_DOCUMENTS_PER_PAYLOAD`,
otherwise to `remainder[key]`. -/
def regulateItems (sz : α → Nat) : List α → Nat → Nat → RegAcc α
  | [], size, limit => ⟨[], [], size, limit⟩
  | item :: rest, size, limit =>
    let size' := size + sz item
    let limit' := limit + 1
    let r := regulateItems sz rest size' limit'
    if size' < MAX_BYTES_PER_PAYLOAD ∧ limit' ≤ MAX_DOCUMENTS_PER_PAYLOAD then
      { r with inc := item :: r.inc }
    else
      { r with rem := item :: r.rem }

/-- Outer loop of `regulatePayload` over the payload's keys, threading the
shared counters from key to key (they are never reset).  Returns the
`included` and `remainder` objects (same keys, same key order as the payload)
and the final counters. -/
def regulateGo (sz : α → Nat) :
    List (String × List α) → Nat → Nat →
    List (String × List α) × List (String × List α) × Nat × Nat
  | [], size, limit => ([], [], size, limit)
  | (key, items) :: rest, size, limit =>
    let r := regulateItems sz items size limit
    let rest' := regulateGo sz rest r.size r.limit
    ((key, r.inc) :: rest'.1, (key, r.rem) :: rest'.2.1, rest'.2.2.1, rest'.2.2.2)

/-- `regulatePayload` (source lines 25-55): split a payload into the
in-budget `included` object and the overflow `remainder` object, both with
the same keys as the payload.  Counters start at zero. -/
def regulatePayload (sz : α → Nat) (payload : List (String × List α)) :
    List (String × List α) × List (String × List α) :=
  let r := regulateGo sz payload 0 0
  (r.1, r.2.1)

/-- Total serialized byte size of a list of items. -/
def sizeSum (sz : α → Nat) (l : List α) : Nat := (l.map sz).sum

/-- Concatenation of all value lists of a payload object, in visit order. -/
def joinVals (p : List (String × List α)) : List α := (p.map Prod.snd).flatten

/-! ### Regulator lemmas -/

theorem regulateItems_size (sz : α → Nat) (xs : List α) (s l : Nat) :
    (regulateItems sz xs s l).size = s + sizeSum sz xs := by
  induction xs generalizing s l with
  | nil => simp [regulateItems, sizeSum]
  | cons x rest ih =>
    simp only [regulateItems]
    split <;> simp [ih, sizeSum] <;> omega

theorem regulateItems_limit (sz : α → Nat) (xs : List α) (s l : Nat) :
    (regulateItems sz xs s l).limit = l + xs.length := by
  induction xs generalizing s l with
  | nil => simp [regulateItems]
  | cons x rest ih =>
    simp only [regulateItems]
    split <;> simp [ih] <;> omega

/-- Once a budget has been crossed at entry, every item goes to the remainder:
the counters are monotone, so the per-item condition can never hold again. -/
theorem regulateItems_crossed (sz : α → Nat) (xs : List α) (s l : Nat)
    (h : MAX_BYTES_PER_PAYLOAD ≤ s ∨ MAX_DOCUMENTS_PER_PAYLOAD ≤ l) :
    (regulateItems sz xs s l).inc = [] ∧ (regulateItems sz xs s l).rem = xs := by
  induction xs generalizing s l with
  | nil => simp [regulateItems]
  | cons x rest ih =>
    have hcond : ¬ (s + sz x < MAX_BYTES_PER_PAYLOAD ∧ l + 1 ≤ MAX_DOCUMENTS_PER_PAYLOAD) := by
      rcases h with h | h
      · intro hc; omega
      · intro hc; omega
    have ih' := ih (s + sz x) (l + 1) (by omega)
    simp [regulateItems, hcond, ih'.1, ih'.2]

/-- Regulation completeness for one key: the included and remainder lists
concatenate (in visit order) back to the original item list. -/
theorem regulateItems_concat (sz : α → Nat) (xs : List α) (s l : Nat) :
    (regulateItems sz xs s l).inc ++ (regulateItems sz xs s l).rem = xs := by
  induction xs generalizing s l with
  | nil => simp [regulateItems]
  | cons x rest ih =>
    simp only [regulateItems]
    split
    next hcond =>
      simp only [List.cons_append]
      rw [ih]
    next hcond =>
      have h' : MAX_BYTES_PER_PAYLOAD ≤ s + sz x ∨ MAX_DOCUMENTS_PER_PAYLOAD ≤ l + 1 := by
        by_contra hno
        push_neg at hno
        exact hcond ⟨hno.1, by omega⟩
      have hcr := regulateItems_crossed sz rest (s + sz x) (l + 1) h'
      simp [hcr.1, hcr.2]

/-- The regulator processes a concatenation of two item lists exactly as it
processes the first and then the second with the carried-over counters. -/
theorem regulateItems_append (sz : α → Nat) (xs ys : List α) (s l : Nat) :
    regulateItems sz (xs ++ ys) s l =
      ⟨(regulateItems sz xs s l).inc ++
          (regulateItems sz ys (regulateItems sz xs s l).size
            (regulateItems sz xs s l).limit).inc,
        (regulateItems sz xs s l).rem ++
          (regulateItems sz ys (regulateItems sz xs s l).size
            (regulateItems sz xs s l).limit).rem,
        (regulateItems sz ys (regulateItems sz xs s l).size
          (regulateItems sz xs s l).limit).size,
        (regulateItems sz ys (regulateItems sz xs s l).size
          (regulateItems sz xs s l).limit).limit⟩ := by
  induction xs generalizing s l with
  | nil => simp [regulateItems]
  | cons x rest ih =>
    simp only [List.cons_append, regulateItems]
    split <;> simp [ih]

/-- Exact characterization of which flattened position is included: position
`j` of a single item list ends up in `included` iff, after that item's update,
the cumulative byte count is strictly under the size budget and the cumulative
item count is at or under the count budget. -/
theorem regulateItems_inc_iff (sz : α → Nat) (xs : List α) (s l j : Nat) :
    j < (regulateItems sz xs s l).inc.length ↔
      (j < xs.length ∧
        s + sizeSum sz (xs.take (j + 1)) < MAX_BYTES_PER_PAYLOAD ∧
        l + (j + 1) ≤ MAX_DOCUMENTS_PER_PAYLOAD) := by
  induction xs generalizing s l j with
  | nil => simp [regulateItems]
  | cons x rest ih =>
    simp only [regulateItems]
    split
    next hcond =>
      cases j with
      | zero =>
        simp [sizeSum]
        exact ⟨hcond.1, hcond.2⟩
      | succ j' =>
        have := ih (s + sz x) (l + 1) j'
        simp only [List.length_cons, List.take_succ_cons, sizeSum, List.map_cons,
          List.sum_cons] at *
        constructor
        · intro hj
          have hj' : j' < (regulateItems sz rest (s + sz x) (l + 1)).inc.length := by
            simpa using Nat.lt_of_succ_lt_succ hj
          obtain ⟨h1, h2, h3⟩ := this.mp hj'
          exact ⟨by omega, by omega, by omega⟩
        · intro ⟨h1, h2, h3⟩
          have : j' < (regulateItems sz rest (s + sz x) (l + 1)).inc.length :=
            this.mpr ⟨by omega, by omega, by omega⟩
          simpa using Nat.succ_lt_succ this
    next hcond =>
      have h' : MAX_BYTES_PER_PAYLOAD ≤ s + sz x ∨ MAX_DOCUMENTS_PER_PAYLOAD ≤ l + 1 := by
        by_contra hno
        push_neg at hno
        exact hcond ⟨hno.1, by omega⟩
      have hcr := regulateItems_crossed sz rest (s + sz x) (l + 1) h'
      simp only [hcr.1, List.length_nil, Nat.not_lt_zero, false_iff]
      intro ⟨h1, h2, h3⟩
      rw [List.take_succ_cons] at h2
      simp only [sizeSum, List.map_cons, List.sum_cons] at h2
      omega

/-- The keys of both regulator outputs coincide with the payload's keys,
and key by key the included and remainder lists concatenate back to the
original payload list (with arbitrary starting counters). -/
theorem regulateGo_concat (sz : α → Nat) (p : List (String × List α)) (s l : Nat) :
    (regulateGo sz p s l).1.map Prod.fst = p.map Prod.fst ∧
    (regulateGo sz p s l).2.1.map Prod.fst = p.map Prod.fst ∧
    List.zipWith (fun a b => a.2 ++ b.2) (regulateGo sz p s l).1 (regulateGo sz p s l).2.1 =
      p.map Prod.snd := by
  induction p generalizing s l with
  | nil => simp [regulateGo]
  | cons kv rest ih =>
    obtain ⟨key, items⟩ := kv
    have ih' := ih (regulateItems sz items s l).size (regulateItems sz items s l).limit
    simp [regulateGo, ih'.1, ih'.2.1, ih'.2.2, regulateItems_concat]

/-- Flattening the regulator output over all keys is the same as running the
single-key item loop on the flattened payload: the counters are shared across
keys and never reset, so key boundaries are invisible to the split. -/
theorem regulateGo_join (sz : α → Nat) (p : List (String × List α)) (s l : Nat) :
    joinVals (regulateGo sz p s l).1 = (regulateItems sz (joinVals p) s l).inc ∧
    joinVals (regulateGo sz p s l).2.1 = (regulateItems sz (joinVals p) s l).rem := by
  induction p generalizing s l with
  | nil => simp [regulateGo, joinVals, regulateItems]
  | cons kv rest ih =>
    obtain ⟨key, items⟩ := kv
    have ih' := ih (regulateItems sz items s l).size (regulateItems sz items s l).limit
    simp only [regulateGo, joinVals, List.map_cons, List.flatten_cons] at *
    rw [regulateItems_append]
    simp [ih'.1, ih'.2]

/-- Claim C2: for every payload mapping given to the payload regulator and for
every key of that mapping, concatenating `included[key]` followed by
`remainder[key]` in visit order reproduces `payload[key]` exactly; per-key
item order is preserved in both outputs and no item is duplicated or dropped.
The outputs also carry exactly the payload's keys, in the payload's key
order. -/
theorem regulate_reconstructs_payload (sz : α → Nat) (payload : List (String × List α)) :
    (regulatePayload sz payload).1.map Prod.fst = payload.map Prod.fst ∧
    (regulatePayload sz payload).2.map Prod.fst = payload.map Prod.fst ∧
    List.zipWith (fun a b => a.2 ++ b.2)
      (regulatePayload sz payload).1 (regulatePayload sz payload).2 =
      payload.map Prod.snd := by
  simpa [regulatePayload] using regulateGo_concat sz payload 0 0

/-- Claim C3: the running cumulative size and count are shared across all keys
and never reset, so regulation is a global prefix/suffix split of the
flattened visit order: the flattened `included` is an initial segment of the
flattened payload, the flattened `remainder` is the matching final segment,
and the item at flattened position `j` is included precisely when, after
adding its size and incrementing the count, the cumulative byte size is
strictly below 4 KB and the cumulative count is at or below 10.  In
particular, once either budget is crossed every later item (under any key)
lands in the remainder. -/
theorem regulate_global_prefix_split (sz : α → Nat) (payload : List (String × List α)) :
    joinVals (regulatePayload sz payload).1 =
      (joinVals payload).take (joinVals (regulatePayload sz payload).1).length ∧
    joinVals (regulatePayload sz payload).2 =
      (joinVals payload).drop (joinVals (regulatePayload sz payload).1).length ∧
    ∀ j, j < (joinVals payload).length →
      (j < (joinVals (regulatePayload sz payload).1).length ↔
        (sizeSum sz ((joinVals payload).take (j + 1)) < MAX_BYTES_PER_PAYLOAD ∧
          j + 1 ≤ MAX_DOCUMENTS_PER_PAYLOAD)) := by
  have hj := regulateGo_join sz payload 0 0
  have hc := regulateItems_concat sz (joinVals payload) 0 0
  have h1 : joinVals (regulatePayload sz payload).1 =
      (regulateItems sz (joinVals payload) 0 0).inc := by
    simpa [regulatePayload] using hj.1
  have h2 : joinVals (regulatePayload sz payload).2 =
      (regulateItems sz (joinVals payload) 0 0).rem := by
    simpa [regulatePayload] using hj.2
  have hsplit : ∀ {I R L : List α}, I ++ R = L →
      I = L.take I.length ∧ R = L.drop I.length := by
    intro I R L h
    subst h
    exact ⟨(List.take_left I R).symm, (List.drop_left I R).symm⟩
  refine ⟨?_, ?_, ?_⟩
  · rw [h1]
    exact (hsplit hc).1
  · rw [h2, h1]
    exact (hsplit hc).2
  · intro j hjlen
    rw [h1]
    have := regulateItems_inc_iff sz (joinVals payload) 0 0 j
    simpa [hjlen] using this

/-- Witness for claim C3 at a concrete payload: with item sizes taken as the
numbers themselves, the payload `create ↦ [3000, 2000], delete ↦ [1]` is split
after its first flattened item (3000 + 2000 crosses the 4096-byte budget), and
position 1 is correctly excluded. -/
theorem regulate_global_prefix_split_witness :
    (1 < (joinVals [("create", [3000, 2000]), ("delete", [1])]).length) ∧
    (1 < (joinVals (regulatePayload (fun n => n) [("create", [3000, 2000]), ("delete", [1])]).1).length ↔
      (sizeSum (fun n => n) ((joinVals [("create", [3000, 2000]), ("delete", [1])]).take 2) <
          MAX_BYTES_PER_PAYLOAD ∧ 2 ≤ MAX_DOCUMENTS_PER_PAYLOAD)) :=
  ⟨by decide,
    (regulate_global_prefix_split (fun n => n) [("create", [3000, 2000]), ("delete", [1])]).2.2
      1 (by decide)⟩

/-! ## Operation sets and the batch broadcaster (source lines 583-615)

`broadcast` receives an object with `create`, `replace` and `delete` keys (in
that insertion order, as built by `multiple`, lines 479-483).  Submitting to
`client.platform.documents.broadcast` may throw; the source catches any throw
and returns `false`.  We model the remote capability as a boolean function of
the call index and the submitted batch (`false` = the call throws), embed the
unbounded recursion with explicit fuel, and also return the trace of batches
submitted to the remote capability, in submission order. -/

/-- An operation set: the `create`, `replace`, `delete` sequences, in the key
order of the object literal of `multiple` (source lines 479-483). -/
structure OpSet (α : Type) where
  create : List α
  replace : List α
  delete : List α
  deriving DecidableEq, Repr

/-- The payload object that `regulatePayload` sees when `broadcast` passes it
an operation set: keys in insertion order `create`, `replace`, `delete`. -/
def opsToPayload (o : OpSet α) : List (String × List α) :=
  [("create", o.create), ("replace", o.replace), ("delete", o.delete)]

/-- Read an operation set back off a regulated payload object (the regulator
returns objects with exactly the input's keys). -/
def payloadToOps (p : List (String × List α)) : OpSet α :=
  ⟨(p.lookup "create").getD [], (p.lookup "replace").getD [], (p.lookup "delete").getD []⟩

/-- `regulatePayload` applied to an operation-set payload, as `broadcast`
does at source line 586. -/
def regulateOps (sz : α → Nat) (o : OpSet α) : OpSet α × OpSet α :=
  let r := regulatePayload sz (opsToPayload o)
  (payloadToOps r.1, payloadToOps r.2)

/-- The emptiness test of `broadcast` (source lines 588-592 and 601-605):
`x.create.length || x.replace.length || x.delete.length`. -/
def opsNE (o : OpSet α) : Bool :=
  !o.create.isEmpty || !o.replace.isEmpty || !o.delete.isEmpty

/-- The `broadcast` action (source lines 584-615), with explicit fuel; fuel
exhaustion returns `none` (the JS recursion never produces a result).  The
result is the ordered list of batches submitted to the remote capability,
paired with the resolved boolean (`some true`/`some false`) or `none`.  A
remote result of `false` models the remote broadcast throwing: the source
catches it and returns `false`. -/
def broadcastFuel (sz : α → Nat) (remote : Nat → OpSet α → Bool) :
    Nat → Nat → OpSet α → List (OpSet α) × Option Bool
  | 0, _, _ => ([], none)
  | fuel + 1, calls, ops =>
    if opsNE (regulateOps sz ops).1 then
      if remote calls (regulateOps sz ops).1 then
        if opsNE (regulateOps sz ops).2 then
          ((regulateOps sz ops).1 ::
              (broadcastFuel sz remote fuel (calls + 1) (regulateOps sz ops).2).1,
            (broadcastFuel sz remote fuel (calls + 1) (regulateOps sz ops).2).2)
        else ([(regulateOps sz ops).1], some true)
      else ([(regulateOps sz ops).1], some false)
    else
      if opsNE (regulateOps sz ops).2 then
        broadcastFuel sz remote fuel calls (regulateOps sz ops).2
      else ([], some true)

/-- The sequence of budget-respecting chunks that regulation cuts a payload
into, independent of the remote capability (fuel-bounded like `broadcastFuel`). -/
def cutChunks (sz : α → Nat) : Nat → OpSet α → List (OpSet α)
  | 0, _ => []
  | fuel + 1, ops =>
    if opsNE (regulateOps sz ops).1 then
      if opsNE (regulateOps sz ops).2 then
        (regulateOps sz ops).1 :: cutChunks sz fuel (regulateOps sz ops).2
      else [(regulateOps sz ops).1]
    else
      if opsNE (regulateOps sz ops).2 then cutChunks sz fuel (regulateOps sz ops).2
      else []

/-- `regulateOps` computed: the three key lists are regulated in object key
order with the two counters threaded through (never reset). -/
theorem regulateOps_eq (sz : α → Nat) (o : OpSet α) :
    regulateOps sz o =
      (⟨(regulateItems sz o.create 0 0).inc,
        (regulateItems sz o.replace (regulateItems sz o.create 0 0).size
          (regulateItems sz o.create 0 0).limit).inc,
        (regulateItems sz o.delete
          (regulateItems sz o.replace (regulateItems sz o.create 0 0).size
            (regulateItems sz o.create 0 0).limit).size
          (regulateItems sz o.replace (regulateItems sz o.create 0 0).size
            (regulateItems sz o.create 0 0).limit).limit).inc⟩,
       ⟨(regulateItems sz o.create 0 0).rem,
        (regulateItems sz o.replace (regulateItems sz o.create 0 0).size
          (regulateItems sz o.create 0 0).limit).rem,
        (regulateItems sz o.delete
          (regulateItems sz o.replace (regulateItems sz o.create 0 0).size
            (regulateItems sz o.create 0 0).limit).size
          (regulateItems sz o.replace (regulateItems sz o.create 0 0).size
            (regulateItems sz o.create 0 0).limit).limit).rem⟩) := by
  rfl

/-- Every submitted batch is a prefix of the cut sequence (chunks go out
strictly in the order they were cut), every submitted batch except possibly
the last received a successful remote call, and a `false` result means the
last submitted batch's remote call failed (so no chunk after the first
failure is ever submitted). -/
theorem broadcastFuel_trace_spec (sz : α → Nat) (remote : Nat → OpSet α → Bool)
    (fuel calls : Nat) (ops : OpSet α) :
    (broadcastFuel sz remote fuel calls ops).1 =
      (cutChunks sz fuel ops).take (broadcastFuel sz remote fuel calls ops).1.length ∧
    (∀ i, i + 1 < (broadcastFuel sz remote fuel calls ops).1.length →
      remote (calls + i) ((broadcastFuel sz remote fuel calls ops).1.getD i ⟨[], [], []⟩) = true) ∧
    ((broadcastFuel sz remote fuel calls ops).2 = some false →
      ∃ t last, (broadcastFuel sz remote fuel calls ops).1 = t ++ [last] ∧
        remote (calls + t.length) last = false) := by
  induction fuel generalizing calls ops with
  | zero =>
    refine ⟨rfl, ?_, ?_⟩
    · intro i hi
      simp [broadcastFuel] at hi
    · intro h
      simp [broadcastFuel] at h
  | succ fuel ih =>
    by_cases h1 : opsNE (regulateOps sz ops).1
    · by_cases h2 : remote calls (regulateOps sz ops).1
      · by_cases h3 : opsNE (regulateOps sz ops).2
        · have hbf : broadcastFuel sz remote (fuel + 1) calls ops =
              ((regulateOps sz ops).1 ::
                  (broadcastFuel sz remote fuel (calls + 1) (regulateOps sz ops).2).1,
                (broadcastFuel sz remote fuel (calls + 1) (regulateOps sz ops).2).2) := by
            simp [broadcastFuel, h1, h2, h3]
          have hcut : cutChunks sz (fuel + 1) ops =
              (regulateOps sz ops).1 :: cutChunks sz fuel (regulateOps sz ops).2 := by
            simp [cutChunks, h1, h3]
          obtain ⟨ih1, ih2, ih3⟩ := ih (calls + 1) (regulateOps sz ops).2
          refine ⟨?_, ?_, ?_⟩
          · rw [hbf, hcut]
            simp only [List.length_cons, List.take_succ_cons]
            rw [← ih1]
          · intro i hi
            rw [hbf] at hi ⊢
            cases i with
            | zero => simpa using h2
            | succ i' =>
              simp only [List.length_cons] at hi
              have hi' : i' + 1 <
                  (broadcastFuel sz remote fuel (calls + 1) (regulateOps sz ops).2).1.length := by
                omega
              have := ih2 i' hi'
              have harith : calls + 1 + i' = calls + (i' + 1) := by omega
              rw [harith] at this
              simpa using this
          · intro hres
            rw [hbf] at hres ⊢
            obtain ⟨t, last, ht, hlast⟩ := ih3 hres
            refine ⟨(regulateOps sz ops).1 :: t, last, by simp [ht], ?_⟩
            have harith : calls + 1 + t.length = calls + ((regulateOps sz ops).1 :: t).length := by
              simp
              omega
            rw [← harith]
            exact hlast
        · have hbf : broadcastFuel sz remote (fuel + 1) calls ops =
              ([(regulateOps sz ops).1], some true) := by
            simp [broadcastFuel, h1, h2, h3]
          have hcut : cutChunks sz (fuel + 1) ops = [(regulateOps sz ops).1] := by
            simp [cutChunks, h1, h3]
          refine ⟨by rw [hbf, hcut]; simp, ?_, ?_⟩
          · intro i hi
            rw [hbf] at hi
            simp at hi
          · intro hres
            rw [hbf] at hres
            simp at hres
      · have hbf : broadcastFuel sz remote (fuel + 1) calls ops =
            ([(regulateOps sz ops).1], some false) := by
          simp [broadcastFuel, h1, h2]
        refine ⟨?_, ?_, ?_⟩
        · rw [hbf]
          by_cases h3 : opsNE (regulateOps sz ops).2 <;> simp [cutChunks, h1, h3]
        · intro i hi
          rw [hbf] at hi
          simp at hi
        · intro _
          rw [hbf]
          exact ⟨[], (regulateOps sz ops).1, rfl, by simpa using h2⟩
    · by_cases h3 : opsNE (regulateOps sz ops).2
      · have hbf : broadcastFuel sz remote (fuel + 1) calls ops =
            broadcastFuel sz remote fuel calls (regulateOps sz ops).2 := by
          simp [broadcastFuel, h1, h3]
        have hcut : cutChunks sz (fuel + 1) ops = cutChunks sz fuel (regulateOps sz ops).2 := by
          simp [cutChunks, h1, h3]
        rw [hbf, hcut]
        exact ih calls (regulateOps sz ops).2
      · have hbf : broadcastFuel sz remote (fuel + 1) calls ops = ([], some true) := by
          simp [broadcastFuel, h1, h3]
        refine ⟨by rw [hbf]; simp, ?_, ?_⟩
        · intro i hi
          rw [hbf] at hi
          simp at hi
        · intro hres
          rw [hbf] at hres
          simp at hres

/-- Claim C1: `broadcast` regulates its operation set into an included batch
and a remainder, submits the included batch only when non-empty, returns false
as soon as a submission throws, recurses on a non-empty remainder after a
successful (or skipped) submission, and returns true otherwise.  Generally:
the submitted trace is an initial segment of the cut-chunk sequence (chunks go
out strictly in cut order), every submitted chunk before the last succeeded,
and a false result means the last submitted chunk failed — so the first
failing chunk halts all later chunks.  Concretely: a 25-item payload cut into
3 chunks of 10/10/5, with the remote throwing on the second call, yields false
after exactly 2 remote calls, the third chunk never being submitted. -/
theorem broadcast_order_and_short_circuit :
    (∀ (α : Type) (sz : α → Nat) (remote : Nat → OpSet α → Bool) (fuel calls : Nat)
        (ops : OpSet α),
      (broadcastFuel sz remote fuel calls ops).1 =
        (cutChunks sz fuel ops).take (broadcastFuel sz remote fuel calls ops).1.length ∧
      (∀ i, i + 1 < (broadcastFuel sz remote fuel calls ops).1.length →
        remote (calls + i)
          ((broadcastFuel sz remote fuel calls ops).1.getD i ⟨[], [], []⟩) = true) ∧
      ((broadcastFuel sz remote fuel calls ops).2 = some false →
        ∃ (t : List (OpSet α)) (last : OpSet α),
          (broadcastFuel sz remote fuel calls ops).1 = t ++ [last] ∧
          remote (calls + t.length) last = false)) ∧
    broadcastFuel (fun (_ : Nat) => 1) (fun k _ => k != 1) 10 0 ⟨List.range 25, [], []⟩ =
      ([⟨List.range 10, [], []⟩, ⟨List.range' 10 10, [], []⟩], some false) ∧
    cutChunks (fun (_ : Nat) => 1) 10 ⟨List.range 25, [], []⟩ =
      [⟨List.range 10, [], []⟩, ⟨List.range' 10 10, [], []⟩, ⟨List.range' 20 5, [], []⟩] := by
  refine ⟨?_, by decide, by decide⟩
  intro α sz remote fuel calls ops
  exact broadcastFuel_trace_spec sz remote fuel calls ops

/-- Witness for claim C1: a two-chunk payload with an always-succeeding
remote; the first submitted chunk (not the last) indeed received a successful
remote call. -/
theorem broadcast_order_and_short_circuit_witness :
    0 + 1 < (broadcastFuel (fun (_ : Nat) => 1) (fun _ _ => true) 5 0
        ⟨List.range 11, [], []⟩).1.length ∧
    (fun (_ : Nat) (_ : OpSet Nat) => true) (0 + 0)
      ((broadcastFuel (fun (_ : Nat) => 1) (fun _ _ => true) 5 0
        ⟨List.range 11, [], []⟩).1.getD 0 ⟨[], [], []⟩) = true :=
  ⟨by decide,
    broadcast_order_and_short_circuit.1 Nat (fun _ => 1) (fun _ _ => true) 5 0
      ⟨List.range 11, [], []⟩ |>.2.1 0 (by decide)⟩

/-- Claim C10: if the first flattened item of an operation set serializes to
4 KB or more, regulation places every item in the remainder (the included
batch is entirely empty) and the remainder equals the input itself, so
`broadcast` recurses on its own input forever: for every amount of fuel it
makes no remote call and produces no result. -/
theorem broadcast_oversize_first_item_diverges (sz : α → Nat) (ops : OpSet α)
    (x : α) (rest : List α)
    (hjoin : ops.create ++ ops.replace ++ ops.delete = x :: rest)
    (hbig : MAX_BYTES_PER_PAYLOAD ≤ sz x) :
    regulateOps sz ops = (⟨[], [], []⟩, ops) ∧
    ∀ (remote : Nat → OpSet α → Bool) (fuel calls : Nat),
      broadcastFuel sz remote fuel calls ops = ([], none) := by
  obtain ⟨c, r, d⟩ := ops
  simp only at hjoin
  -- the flattened single-list run places everything in the remainder
  have hflat : (regulateItems sz (c ++ (r ++ d)) 0 0).inc = [] ∧
      (regulateItems sz (c ++ (r ++ d)) 0 0).rem = c ++ (r ++ d) := by
    rw [← List.append_assoc, hjoin]
    have hcond : ¬ (sz x < MAX_BYTES_PER_PAYLOAD ∧
        1 ≤ MAX_DOCUMENTS_PER_PAYLOAD) := by
      intro hc
      have := hc.1
      omega
    have hcr := regulateItems_crossed sz rest (sz x) 1 (Or.inl hbig)
    simp [regulateItems, hcond, hcr.1, hcr.2]
  -- decompose the flattened run into the three per-key runs
  rw [regulateItems_append sz c (r ++ d) 0 0,
    regulateItems_append sz r d (regulateItems sz c 0 0).size
      (regulateItems sz c 0 0).limit] at hflat
  dsimp only at hflat
  have hinc1 : (regulateItems sz c 0 0).inc = [] :=
    (List.append_eq_nil.mp hflat.1).1
  have hincrest := (List.append_eq_nil.mp hflat.1).2
  have hinc2 : (regulateItems sz r (regulateItems sz c 0 0).size
      (regulateItems sz c 0 0).limit).inc = [] :=
    (List.append_eq_nil.mp hincrest).1
  have hinc3 : (regulateItems sz d
      (regulateItems sz r (regulateItems sz c 0 0).size
        (regulateItems sz c 0 0).limit).size
      (regulateItems sz r (regulateItems sz c 0 0).size
        (regulateItems sz c 0 0).limit).limit).inc = [] :=
    (List.append_eq_nil.mp hincrest).2
  -- with empty included parts, each remainder part is the original key list
  have hrem1 : (regulateItems sz c 0 0).rem = c := by
    have := regulateItems_concat sz c 0 0
    rwa [hinc1, List.nil_append] at this
  have hrem2 : (regulateItems sz r (regulateItems sz c 0 0).size
      (regulateItems sz c 0 0).limit).rem = r := by
    have := regulateItems_concat sz r (regulateItems sz c 0 0).size
      (regulateItems sz c 0 0).limit
    rwa [hinc2, List.nil_append] at this
  have hrem3 : (regulateItems sz d
      (regulateItems sz r (regulateItems sz c 0 0).size
        (regulateItems sz c 0 0).limit).size
      (regulateItems sz r (regulateItems sz c 0 0).size
        (regulateItems sz c 0 0).limit).limit).rem = d := by
    have := regulateItems_concat sz d
      (regulateItems sz r (regulateItems sz c 0 0).size
        (regulateItems sz c 0 0).limit).size
      (regulateItems sz r (regulateItems sz c 0 0).size
        (regulateItems sz c 0 0).limit).limit
    rwa [hinc3, List.nil_append] at this
  have hreg : regulateOps sz ⟨c, r, d⟩ = (⟨[], [], []⟩, ⟨c, r, d⟩) := by
    rw [regulateOps_eq]
    simp only at hinc1 hinc2 hinc3 hrem1 hrem2 hrem3 ⊢
    rw [hinc1, hinc2, hinc3, hrem1, hrem2, hrem3]
  refine ⟨hreg, ?_⟩
  have hne : opsNE (⟨c, r, d⟩ : OpSet α) = true := by
    rcases c with _ | ⟨y, c⟩
    · rcases r with _ | ⟨y, r⟩
      · rcases d with _ | ⟨y, d⟩
        · simp at hjoin
        · simp [opsNE]
      · simp [opsNE]
    · simp [opsNE]
  intro remote fuel
  induction fuel with
  | zero => intro calls; rfl
  | succ fuel ih =>
    intro calls
    have hneinc : opsNE (⟨[], [], []⟩ : OpSet α) = false := by simp [opsNE]
    simp only [broadcastFuel, hreg, hneinc, Bool.false_eq_true, if_false, hne, if_true]
    exact ih calls

/-- Witness for claim C10: a singleton create payload whose only item weighs
5000 bytes; regulation includes nothing and broadcast never answers. -/
theorem broadcast_oversize_first_item_diverges_witness :
    ([0] : List Nat) ++ [] ++ [] = [0] ∧
    MAX_BYTES_PER_PAYLOAD ≤ (fun (_ : Nat) => 5000) 0 ∧
    broadcastFuel (fun (_ : Nat) => 5000) (fun _ _ => true) 7 0 ⟨[0], [], []⟩ = ([], none) :=
  ⟨rfl, by decide,
    (broadcast_oversize_first_item_diverges (fun _ => 5000) ⟨[0], [], []⟩ 0 [] rfl
      (by decide)).2 (fun _ _ => true) 7 0⟩

/-! ## Items, documents and the local mirror (source lines 380-528)

Items and documents are JavaScript objects with string-valued fields,
modelled as ordered association lists (plain JS objects preserve insertion
order for non-numeric keys).  The per-type local mirror `state.documents` is
an object keyed by `$id`. -/

/-- A raw item / document snapshot: an ordered list of string fields. -/
abbrev Item : Type := List (String × String)

/-- A document, as stored by `toJSON` snapshots: same shape as an item. -/
abbrev Doc : Type := Item

/-- The local mirror `state.documents`: an object keyed by document `$id`. -/
abbrev Mirror : Type := List (String × Doc)

/-- `keys(item)` (lodash): the item's field names in insertion order. -/
def itemKeys (i : Item) : List String := i.map Prod.fst

/-- `item.$id` as used in boolean/key position: the `$id` field's value, or
the empty string when the field is absent (both `undefined` and `""` are
falsy). -/
def itemId (i : Item) : String := (i.lookup "$id").getD ""

/-- lodash `startsWith(key, "$")`, expressed on the character list so that it
evaluates inside the kernel. -/
def startsWithDollar (k : String) : Bool := ("$".data).isPrefixOf k.data

/-- `pickBy(item, (value, key) => !startsWith(key, "$"))` (source line 495):
the item's non-reserved fields. -/
def dataFields (i : Item) : List (String × String) :=
  i.filter (fun kv => !(startsWithDollar kv.1))

/-- Set one data field on a document: overwrite in place when the key exists,
append otherwise. -/
def setField (d : Doc) (k v : String) : Doc :=
  if (d.lookup k).isSome then d.map (fun kv => if kv.1 = k then (k, v) else kv)
  else d ++ [(k, v)]

/-- `replaced.setData(fields)` (source line 494): merge the given fields into
the document. -/
def setFields (d : Doc) (fs : List (String × String)) : Doc :=
  fs.foldl (fun acc kv => setField acc kv.1 kv.2) d

/-- The `one` mutation (source lines 394-400): `{...state.documents, [id]: doc}`
keeps the position of an existing key and appends a new one. -/
def mirrorInsert (m : Mirror) (id : String) (d : Doc) : Mirror :=
  if (m.lookup id).isSome then m.map (fun kv => if kv.1 = id then (id, d) else kv)
  else m ++ [(id, d)]

/-- The `remove` mutation (source lines 401-406): `omit(state.documents, id)`. -/
def mirrorRemove (m : Mirror) (id : String) : Mirror :=
  m.filter (fun kv => kv.1 != id)

/-- `keyBy(invokeMap(payload, "toJSON"), "$id")` (source line 391): build the
mirror from a document list; a later document with the same id overwrites an
earlier one. -/
def keyByDocs (docs : List Doc) : Mirror :=
  docs.foldl (fun m d => mirrorInsert m (itemId d) d) []

/-- `JSON.stringify` of a flat string-valued object.  Braces are written with
their escapes. -/
def jsonStringify (i : Item) : String :=
  "\x7b" ++ String.intercalate ","
    (i.map (fun kv => "\"" ++ kv.1 ++ "\":\"" ++ kv.2 ++ "\"")) ++ "\x7d"

/-- `new TextEncoder().encode(JSON.stringify(item)).length` for a flat
string-valued object: its UTF-8 byte size. -/
def jsonSize (i : Item) : Nat := (jsonStringify i).utf8ByteSize

/-- Serialized size of an entry of `multiple`'s operation set, whose `create`
entries may be `undefined` (a failed `compose`): `JSON.stringify(undefined)`
is `undefined`, and `TextEncoder.encode` treats an `undefined` argument as
its default `""`, so such an entry contributes 0 bytes. -/
def jsonSizeOpt : Option Doc → Nat
  | some d => jsonSize d
  | none => 0

/-- JS truthiness of `obj.key` for a plain object whose values are arrays:
the property is truthy iff it is present (an array is truthy even when
empty); an absent property is `undefined`, which is falsy.  This models
`remainder.length` at source line 519, where `remainder` is the regulated
object whose only key is `"items"`. -/
def propTruthy (obj : List (String × List β)) (key : String) : Bool :=
  (obj.lookup key).isSome

/-- Decidable equality for `Except` results, used to evaluate the concrete
scenarios below. -/
instance exceptDecEq {ε : Type u} {σ : Type v} [DecidableEq ε] [DecidableEq σ] :
    DecidableEq (Except ε σ) := fun x y =>
  match x, y with
  | .error a, .error b =>
    if h : a = b then .isTrue (by rw [h])
    else .isFalse (fun hc => h (by injection hc))
  | .ok a, .ok b =>
    if h : a = b then .isTrue (by rw [h])
    else .isFalse (fun hc => h (by injection hc))
  | .error _, .ok _ => .isFalse (fun hc => Except.noConfusion hc)
  | .ok _, .error _ => .isFalse (fun hc => Except.noConfusion hc)

/-! ## The `one` action (source lines 439-449) and its use by `multiple`

`retrieveOne` combines the remote `retrieve` query with lodash `head`:
`.error ()` models the remote query throwing; `.ok none` an empty result
(then `head` is `undefined` and `commit("one", undefined)` throws a
`TypeError` from `payload.toJSON()` inside the mutation, so the action
rejects); `.ok (some d)` a hit, which the action commits to the mirror and
returns. -/

def oneAction (retrieveOne : String → Except Unit (Option Doc)) (id : String)
    (m : Mirror) : Except Unit (Doc × Mirror) :=
  match retrieveOne id with
  | .error e => .error e
  | .ok none => .error ()
  | .ok (some d) => .ok (d, mirrorInsert m (itemId d) d)

/-! ## The `multiple` planner (source lines 474-528) -/

/-- The classification loop of `multiple` (source lines 486-504), run over
the regulated `included.items`.  It threads the mirror (because each
`dispatch("one", ...)` lookup commits its hit) and returns, besides the
planned operation set, the trace of items passed to `compose` (in order).
The whole loop sits inside one `try`: a rejection of `dispatch("one", ...)`
(remote throw or no match) aborts the remaining items, whereas `compose`
catches its own errors (source lines 461-471) and resolves `undefined`. -/
def planItems (retrieveOne : String → Except Unit (Option Doc))
    (compose : Item → Option Doc) :
    List Item → Mirror → Mirror × List Item × Except Unit (OpSet (Option Doc))
  | [], m => (m, [], .ok ⟨[], [], []⟩)
  | item :: rest, m =>
    if itemKeys item = ["$id"] then
      -- isEqual(keys(item), ["$id"]): pending deletion
      match oneAction retrieveOne (itemId item) m with
      | .error e => (m, [], .error e)
      | .ok (d, m') =>
        match planItems retrieveOne compose rest m' with
        | (m'', tr, .error e) => (m'', tr, .error e)
        | (m'', tr, .ok docs) => (m'', tr, .ok { docs with delete := some d :: docs.delete })
    else if itemId item ≠ "" then
      -- item.$id truthy: pending replacement
      match oneAction retrieveOne (itemId item) m with
      | .error e => (m, [], .error e)
      | .ok (d, m') =>
        match planItems retrieveOne compose rest m' with
        | (m'', tr, .error e) => (m'', tr, .error e)
        | (m'', tr, .ok docs) =>
          (m'', tr, .ok { docs with replace := some (setFields d (dataFields item)) :: docs.replace })
    else
      -- pending creation: compose (never rejects, may resolve undefined)
      match planItems retrieveOne compose rest m with
      | (m'', tr, .error e) => (m'', item :: tr, .error e)
      | (m'', tr, .ok docs) => (m'', item :: tr, .ok { docs with create := compose item :: docs.create })

/-- Commit loop on success (source lines 509-514): `commit("one", document)`
for each created/replaced document; a `TypeError` on an `undefined` document
(failed compose) throws out to the surrounding catch, keeping the mirror
mutations made so far. -/
def commitDocs : List (Option Doc) → Mirror → Mirror × Except Unit Unit
  | [], m => (m, .ok ())
  | none :: _, m => (m, .error ())
  | some d :: rest, m => commitDocs rest (mirrorInsert m (itemId d) d)

/-- Eviction loop on success (source lines 515-517): `commit("remove", document)`. -/
def evictDocs : List (Option Doc) → Mirror → Mirror × Except Unit Unit
  | [], m => (m, .ok ())
  | none :: _, m => (m, .error ())
  | some d :: rest, m => evictDocs rest (mirrorRemove m (itemId d))

/-- The `multiple` action (source lines 474-528), with explicit fuel for its
self-recursion (`none` = no result).  The result triple is the final mirror,
the trace of items passed to `compose`, and the JS result: `some true` when
the action returns `true`, `none` when it resolves `undefined` (caught error
or failed broadcast).  Note the recursion guard at source line 519 reads
`remainder.length` on the regulated remainder object, whose only key is
`"items"`. -/
def multipleFuel (rawSz : Item → Nat) (docSz : Option Doc → Nat)
    (retrieveOne : String → Except Unit (Option Doc)) (compose : Item → Option Doc)
    (remote : Nat → OpSet (Option Doc) → Bool) (bFuel : Nat) :
    Nat → List Item → Mirror → Option (Mirror × List Item × Option Bool)
  | 0, _, _ => none
  | fuel + 1, payload, m =>
    let reg := regulatePayload rawSz [("items", payload)]
    match planItems retrieveOne compose ((reg.1.lookup "items").getD []) m with
    | (m', tr, .error _) => some (m', tr, none)
    | (m', tr, .ok docs) =>
      match broadcastFuel docSz remote bFuel 0 docs with
      | (_, none) => none
      | (_, some success) =>
        if success then
          match commitDocs (docs.create ++ docs.replace) m' with
          | (m2, .error _) => some (m2, tr, none)
          | (m2, .ok _) =>
            match evictDocs docs.delete m2 with
            | (m3, .error _) => some (m3, tr, none)
            | (m3, .ok _) =>
              if propTruthy reg.2 "length" then
                match multipleFuel rawSz docSz retrieveOne compose remote bFuel fuel
                    ((reg.2.lookup "items").getD []) m3 with
                | none => none
                | some (m4, tr4, res) => some (m4, tr ++ tr4, res)
              else some (m3, tr, some true)
        else some (m', tr, none)

/-- When the classification loop completes, every raw item has been planned
into exactly one of the three operation sequences. -/
theorem planItems_counts (ro : String → Except Unit (Option Doc))
    (co : Item → Option Doc) (items : List Item) :
    ∀ (m : Mirror) (docs : OpSet (Option Doc)),
      (planItems ro co items m).2.2 = .ok docs →
      docs.create.length + docs.replace.length + docs.delete.length = items.length := by
  induction items with
  | nil =>
    intro m docs h
    simp only [planItems, Except.ok.injEq] at h
    subst h
    simp
  | cons item rest ih =>
    intro m docs h
    simp only [planItems] at h
    split at h
    · -- delete branch
      split at h
      · simp at h
      · split at h
        · simp at h
        · rename_i hrec
          simp only [Except.ok.injEq] at h
          subst h
          have hc := ih _ _ (by rw [hrec])
          simp only [List.length_cons] at hc ⊢
          omega
    · split at h
      · -- replace branch
        split at h
        · simp at h
        · split at h
          · simp at h
          · rename_i hrec
            simp only [Except.ok.injEq] at h
            subst h
            have hc := ih _ _ (by rw [hrec])
            simp only [List.length_cons] at hc ⊢
            omega
      · -- create branch
        split at h
        · simp at h
        · rename_i hrec
          simp only [Except.ok.injEq] at h
          subst h
          have hc := ih _ _ (by rw [hrec])
          simp only [List.length_cons] at hc ⊢
          omega

/-- Claim C6: the bulk-mutation planner classifies each raw item in order —
a field set of exactly the identity key means delete (looked up by id), a
non-empty identity key means replace (the existing record merged with the
raw item's non-reserved fields), anything else means create through the
compose capability — and every raw item is planned into exactly one
sequence.  Concretely, the input
`[{$id:"A"}, {$id:"B", name:"x"}, {name:"y"}]` classifies as
delete `[{$id:"A"}]`, replace `[{$id:"B", name:"x"}]`, create `[{name:"y"}]`. -/
theorem multiple_classifies_items :
    (∀ (ro : String → Except Unit (Option Doc)) (co : Item → Option Doc)
        (items : List Item) (m : Mirror) (docs : OpSet (Option Doc)),
      (planItems ro co items m).2.2 = .ok docs →
      docs.create.length + docs.replace.length + docs.delete.length = items.length) ∧
    (planItems
        (fun id => if id = "A" then .ok (some [("$id", "A")])
          else if id = "B" then .ok (some [("$id", "B"), ("name", "old")])
          else .ok none)
        (fun i => some i)
        [[("$id", "A")], [("$id", "B"), ("name", "x")], [("name", "y")]] []).1 =
      [("A", [("$id", "A")]), ("B", [("$id", "B"), ("name", "old")])] ∧
    (planItems
        (fun id => if id = "A" then .ok (some [("$id", "A")])
          else if id = "B" then .ok (some [("$id", "B"), ("name", "old")])
          else .ok none)
        (fun i => some i)
        [[("$id", "A")], [("$id", "B"), ("name", "x")], [("name", "y")]] []).2.1 =
      [[("name", "y")]] ∧
    (planItems
        (fun id => if id = "A" then .ok (some [("$id", "A")])
          else if id = "B" then .ok (some [("$id", "B"), ("name", "old")])
          else .ok none)
        (fun i => some i)
        [[("$id", "A")], [("$id", "B"), ("name", "x")], [("name", "y")]] []).2.2 =
      .ok ⟨[some [("name", "y")]],
        [some [("$id", "B"), ("name", "x")]],
        [some [("$id", "A")]]⟩ :=
  ⟨fun ro co items m docs h => planItems_counts ro co items m docs h,
    by decide, by decide, by decide⟩

/-- Witness for claim C6: the scenario's planned operation set indeed has one
entry per raw item. -/
theorem multiple_classifies_items_witness :
    ((planItems
        (fun id => if id = "A" then .ok (some [("$id", "A")])
          else if id = "B" then .ok (some [("$id", "B"), ("name", "old")])
          else .ok none)
        (fun i => some i)
        [[("$id", "A")], [("$id", "B"), ("name", "x")], [("name", "y")]] []).2.2 =
      .ok (⟨[some [("name", "y")]],
        [some [("$id", "B"), ("name", "x")]],
        [some [("$id", "A")]]⟩ : OpSet (Option Doc))) ∧
    (1 + 1 + 1 : Nat) = 3 :=
  ⟨by decide,
    multiple_classifies_items.1
      (fun id => if id = "A" then .ok (some [("$id", "A")])
        else if id = "B" then .ok (some [("$id", "B"), ("name", "old")])
        else .ok none)
      (fun i => some i)
      [[("$id", "A")], [("$id", "B"), ("name", "x")], [("name", "y")]] []
      ⟨[some [("name", "y")]], [some [("$id", "B"), ("name", "x")]], [some [("$id", "A")]]⟩
      (by decide)⟩

/-- Counterexample for claim C5: with two raw items — a deletion `{$id:"A"}`
followed by a creation `{name:"y"}` — and a lookup capability that throws,
the plan aborts at the first item: the second item is never composed (empty
compose trace), no operation set is produced, and `multiple` resolves
`undefined` without ever reaching `broadcast`.  The claim said a lookup
failure is caught per item and the remaining items still get planned. -/
theorem lookup_failure_aborts_plan :
    (planItems (fun _ => .error ()) (fun i => some i)
        [[("$id", "A")], [("name", "y")]] []).1 = [] ∧
    (planItems (fun _ => .error ()) (fun i => some i)
        [[("$id", "A")], [("name", "y")]] []).2.1 = [] ∧
    (planItems (fun _ => .error ()) (fun i => some i)
        [[("$id", "A")], [("name", "y")]] []).2.2 = .error () ∧
    multipleFuel jsonSize jsonSizeOpt (fun _ => .error ()) (fun i => some i)
        (fun _ _ => true) 3 1 [[("$id", "A")], [("name", "y")]] [] =
      some ([], [], none) := by
  refine ⟨by decide, by decide, by decide, by decide⟩

/-- Claim C5 (amended): a `compose` failure is caught inside the compose
capability and does not abort the rest of the plan — every raw item on the
create path is still visited, in order, and a failed compose merely
contributes an `undefined` entry to the planned create sequence; but a
lookup failure on a delete/replace item rejects inside the planning loop's
single try block, aborting all remaining items. -/
theorem compose_failure_does_not_abort_plan :
    (∀ (ro : String → Except Unit (Option Doc)) (co : Item → Option Doc)
        (items : List Item) (m : Mirror),
      (∀ item ∈ items, itemKeys item ≠ ["$id"] ∧ itemId item = "") →
      planItems ro co items m = (m, items, .ok ⟨items.map co, [], []⟩)) ∧
    (∀ (ro : String → Except Unit (Option Doc)) (co : Item → Option Doc)
        (item : Item) (rest : List Item) (m : Mirror),
      itemKeys item = ["$id"] → ro (itemId item) = .error () →
      planItems ro co (item :: rest) m = (m, [], .error ())) := by
  constructor
  · intro ro co items m hitems
    induction items with
    | nil => simp [planItems]
    | cons item rest ih =>
      have hitem := hitems item (by simp)
      have hrest : ∀ i ∈ rest, itemKeys i ≠ ["$id"] ∧ itemId i = "" := by
        intro i hi
        exact hitems i (by simp [hi])
      simp [planItems, hitem.1, hitem.2, ih hrest]
  · intro ro co item rest m hkeys hro
    simp [planItems, hkeys, oneAction, hro]

/-- Witness for claim C5 (amended): two pending creations with a compose
capability that always fails still both get visited, producing two
`undefined` create entries. -/
theorem compose_failure_does_not_abort_plan_witness :
    (∀ item ∈ [[("name", "y")], [("name", "z")]],
      itemKeys item ≠ ["$id"] ∧ itemId item = "") ∧
    planItems (fun _ => .ok none) (fun _ => none)
        [[("name", "y")], [("name", "z")]] [] =
      ([], [[("name", "y")], [("name", "z")]], .ok ⟨[none, none], [], []⟩) :=
  ⟨by decide,
    compose_failure_does_not_abort_plan.1 (fun _ => .ok none) (fun _ => none)
      [[("name", "y")], [("name", "z")]] [] (by decide)⟩

/-- The eleven-item bulk payload used to exercise the regulation split in
`multiple`: each item is a single-field object `{name: <letter>}`. -/
def bulkItems : List Item :=
  ["a", "b", "c", "d", "e", "f", "g", "h", "i", "j", "k"].map (fun s => [("name", s)])

/-- A compose stub that succeeds on every item, assigning it a `$id` equal to
its `name` field. -/
def bulkCompose : Item → Option Doc :=
  fun i => some (("$id", (i.lookup "name").getD "") :: i)

/-- Claim C4: the count budget splits the eleven raw items 10/1, the
broadcast of the planned batch succeeds and the ten composed documents are
committed to the mirror — but `multiple` then returns `true` without
recursing on the remainder: the guard at source line 519 reads
`remainder.length` on the plain object `{items: [...]}`, which is
`undefined` and hence falsy, so the eleventh item (`{name:"k"}`) is never
composed, broadcast, or committed.  This contradicts both the claim and the
source's own dead recursion `dispatch("multiple", remainder.items)` at
line 520. -/
theorem multiple_never_recurses_on_remainder :
    (regulatePayload jsonSize [("items", bulkItems)]).2 =
      [("items", [[("name", "k")]])] ∧
    multipleFuel jsonSize jsonSizeOpt (fun _ => .error ()) bulkCompose
        (fun _ _ => true) 3 2 bulkItems [] =
      some
        (["a", "b", "c", "d", "e", "f", "g", "h", "i", "j"].map
            (fun s => (s, [("$id", s), ("name", s)])),
          ["a", "b", "c", "d", "e", "f", "g", "h", "i", "j"].map
            (fun s => [("name", s)]),
          some true) ∧
    (["a", "b", "c", "d", "e", "f", "g", "h", "i", "j"].map
        (fun s => (s, ([("$id", s), ("name", s)] : Doc)))).lookup "k" = none := by
  refine ⟨by decide, by decide, by decide⟩

/-! ## The `all` action: paginated fetcher (source lines 411-436)

The loop `while (all.length >= page * MAX_DOCUMENTS_PER_QUERY)` issues
`retrieve` with `startAt = page * MAX_DOCUMENTS_PER_QUERY` and
`limit = MAX_DOCUMENTS_PER_QUERY`, appends the results, and increments
`page`; it has no try/catch, so a throwing `retrieve` rejects the whole
action.  Fuel bounds the unbounded loop; the returned counter is the final
`page`, which equals the number of remote calls made. -/

def allGo (retrieve : Nat → Nat → Except Unit (List α)) :
    Nat → List α → Nat → Option (Except Unit (List α × Nat))
  | 0, _, _ => none
  | fuel + 1, acc, page =>
    if page * MAX_DOCUMENTS_PER_QUERY ≤ acc.length then
      match retrieve (page * MAX_DOCUMENTS_PER_QUERY) MAX_DOCUMENTS_PER_QUERY with
      | .error e => some (.error e)
      | .ok items => allGo retrieve fuel (acc ++ items) (page + 1)
    else some (.ok (acc, page))

/-- The full `all` action: run the fetch loop from an empty accumulator and
page 0, then `commit("all", all)` replaces the mirror with
`keyBy(invokeMap(all, "toJSON"), "$id")` and the accumulated list is
returned.  A rejection propagates and leaves the mirror untouched. -/
def allAction (retrieve : Nat → Nat → Except Unit (List Doc)) (fuel : Nat)
    (m : Mirror) : Option (Except Unit (List Doc × Nat) × Mirror) :=
  match allGo retrieve fuel [] 0 with
  | none => none
  | some (.error e) => some (.error e, m)
  | some (.ok (acc, k)) => some (.ok (acc, k), keyByDocs acc)

/-- The concatenation of the first `k` pages of a page stub, in order. -/
def joinRange (pages : Nat → List α) (k : Nat) : List α :=
  ((List.range k).map pages).flatten

theorem joinRange_succ (pages : Nat → List α) (p : Nat) :
    joinRange pages (p + 1) = joinRange pages p ++ pages p := by
  simp [joinRange, List.range_succ]

theorem joinRange_full_length (pages : Nat → List α) (K : Nat)
    (hfull : ∀ i, i < K → (pages i).length = MAX_DOCUMENTS_PER_QUERY) :
    ∀ p, p ≤ K → (joinRange pages p).length = p * MAX_DOCUMENTS_PER_QUERY := by
  intro p
  induction p with
  | zero => intro _; simp [joinRange]
  | succ p ih =>
    intro hp
    rw [joinRange_succ]
    simp only [List.length_append]
    rw [ih (by omega), hfull p (by omega)]
    ring

/-- Loop invariant for the paginated fetcher over a page stub whose pages are
full before page `K` and short at page `K`. -/
theorem allGo_loop (pages : Nat → List α) (K : Nat)
    (hfull : ∀ i, i < K → (pages i).length = MAX_DOCUMENTS_PER_QUERY)
    (hshort : (pages K).length < MAX_DOCUMENTS_PER_QUERY) :
    ∀ m p, p + m = K + 1 →
      allGo (fun startAt limit =>
          if limit = MAX_DOCUMENTS_PER_QUERY then
            .ok (pages (startAt / MAX_DOCUMENTS_PER_QUERY))
          else .error ()) (m + 1) (joinRange pages p) p =
        some (.ok (joinRange pages (K + 1), K + 1)) := by
  intro m
  induction m with
  | zero =>
    intro p hp
    have hp' : p = K + 1 := by omega
    subst hp'
    have hlen : (joinRange pages (K + 1)).length =
        K * MAX_DOCUMENTS_PER_QUERY + (pages K).length := by
      rw [joinRange_succ]
      simp only [List.length_append]
      rw [joinRange_full_length pages K hfull K (by omega)]
    have hcond : ¬ ((K + 1) * MAX_DOCUMENTS_PER_QUERY ≤ (joinRange pages (K + 1)).length) := by
      rw [hlen]
      have : (K + 1) * MAX_DOCUMENTS_PER_QUERY = K * MAX_DOCUMENTS_PER_QUERY +
          MAX_DOCUMENTS_PER_QUERY := by ring
      omega
    simp [allGo, hcond]
  | succ m ih =>
    intro p hp
    have hpK : p ≤ K := by omega
    have hcond : p * MAX_DOCUMENTS_PER_QUERY ≤ (joinRange pages p).length := by
      rw [joinRange_full_length pages K hfull p hpK]
    have hdiv : p * MAX_DOCUMENTS_PER_QUERY / MAX_DOCUMENTS_PER_QUERY = p :=
      Nat.mul_div_cancel p (by decide)
    simp only [allGo, hcond, if_true, if_pos rfl, hdiv]
    rw [← joinRange_succ]
    exact ih (p + 1) (by omega)

/-- Claim C7: the paginated fetcher starts at page 0, issues queries with
`startAt = page * pageSize` and `limit = pageSize` (the stub below throws on
any other limit, so success certifies the limit), appends each page's
results, and stops when the accumulator's length falls below
`page * pageSize`; given a stub whose pages are full up to the `(K+1)`-st
call, which returns fewer than `pageSize` items, the loop returns after
exactly `K + 1` remote calls (the returned `page` counter, incremented once
per call) with all accumulated items in page order.  With `K = 0` the first
call still executes on an empty collection. -/
theorem fetchAll_stops_on_short_page (pages : Nat → List α) (K : Nat)
    (hfull : ∀ i, i < K → (pages i).length = MAX_DOCUMENTS_PER_QUERY)
    (hshort : (pages K).length < MAX_DOCUMENTS_PER_QUERY) :
    allGo (fun startAt limit =>
        if limit = MAX_DOCUMENTS_PER_QUERY then
          .ok (pages (startAt / MAX_DOCUMENTS_PER_QUERY))
        else .error ()) (K + 2) [] 0 =
      some (.ok (joinRange pages (K + 1), K + 1)) := by
  have := allGo_loop pages K hfull hshort (K + 1) 0 (by omega)
  simpa [joinRange] using this

/-- Witness for claim C7: one full page of 100 items followed by a
single-item page; the fetcher stops after exactly 2 calls with all 101 items
in order. -/
theorem fetchAll_stops_on_short_page_witness :
    (∀ i, i < 1 → ((fun j => if j = 0 then List.range 100 else [7]) i).length =
      MAX_DOCUMENTS_PER_QUERY) ∧
    ((fun j => if j = 0 then List.range 100 else [7]) 1).length <
      MAX_DOCUMENTS_PER_QUERY ∧
    allGo (fun startAt limit =>
        if limit = MAX_DOCUMENTS_PER_QUERY then
          .ok ((fun j => if j = 0 then List.range 100 else [7])
            (startAt / MAX_DOCUMENTS_PER_QUERY))
        else .error ()) 3 [] 0 =
      some (.ok (joinRange (fun j => if j = 0 then List.range 100 else [7]) 2, 2)) :=
  ⟨by decide, by decide,
    fetchAll_stops_on_short_page (fun j => if j = 0 then List.range 100 else [7]) 1
      (by decide) (by decide)⟩

/-! ## The `delete` action (source lines 567-581)

Representative of the mutation actions (`create`, `replace`, `delete`,
`multiple`): its whole body — the throwing-capable `one` lookup, the
broadcast (which never rejects; its resolved boolean is abstracted as
`bcast`), and the conditional mirror eviction — sits inside a single
try/catch, so the action always resolves (to `undefined`). -/

/-- The body of the `delete` action, in the rejection monad: a rejection of
`dispatch("one", payload.$id)` escapes the body.  The only mirror mutation
before a possible throw is the one performed by a *successful* lookup, so on
rejection the mirror is still the entry mirror. -/
def deleteBody (ro : String → Except Unit (Option Doc)) (bcast : Doc → Bool)
    (payload : Item) (m : Mirror) : Except Unit Mirror :=
  match oneAction ro (itemId payload) m with
  | .error e => .error e
  | .ok (d, m') => if bcast d then .ok (mirrorRemove m' (itemId d)) else .ok m'

/-- The `delete` action: its try/catch converts any rejection of the body
into a resolved `undefined`, keeping the mirror state from the moment of the
throw. -/
def deleteAction (ro : String → Except Unit (Option Doc)) (bcast : Doc → Bool)
    (payload : Item) (m : Mirror) : Mirror :=
  match deleteBody ro bcast payload m with
  | .error _ => m
  | .ok m' => m'

/-- Counterexample for claim C9: the public fetch operations have no
try/catch.  With a remote query capability that throws, the `all` action
(refreshAll) rejects — propagating the exception across the public boundary
and leaving the mirror untouched — and the `one` action (fetchOne) rejects
likewise.  This refutes "no exception crosses a public operation boundary"
as a statement about every public operation. -/
theorem fetchers_reject_on_remote_throw :
    allAction (fun _ _ => .error ()) 1 [("A", [("$id", "A")])] =
      some (.error (), [("A", [("$id", "A")])]) ∧
    oneAction (fun _ => .error ()) "B" [] = .error () :=
  ⟨rfl, rfl⟩

/-- Claim C9 (amended): the mutation operations absorb every remote failure —
exemplified by `delete`, whose try/catch resolves the action for every
behaviour of its capabilities, returning the entry mirror when the body
rejected — while the fetch operations leak: `all` and `one` reject whenever
the remote query capability throws. -/
theorem no_exception_crosses_mutation_boundaries :
    (∀ (ro : String → Except Unit (Option Doc)) (bcast : Doc → Bool)
        (payload : Item) (m : Mirror),
      (deleteBody ro bcast payload m = .error () →
        deleteAction ro bcast payload m = m) ∧
      (∀ m', deleteBody ro bcast payload m = .ok m' →
        deleteAction ro bcast payload m = m')) ∧
    (∀ fuel : Nat,
      allGo (fun _ _ => (.error () : Except Unit (List Doc))) (fuel + 1) [] 0 =
        some (.error ())) ∧
    (∀ (id : String) (m : Mirror), oneAction (fun _ => .error ()) id m = .error ()) := by
  refine ⟨?_, ?_, ?_⟩
  · intro ro bcast payload m
    constructor
    · intro h
      simp [deleteAction, h]
    · intro m' h
      simp [deleteAction, h]
  · intro fuel
    simp [allGo]
  · intro id m
    rfl

/-- Witness for claim C9 (amended): with a throwing lookup, the delete body
rejects, and the delete action still resolves with the entry mirror. -/
theorem no_exception_crosses_mutation_boundaries_witness :
    deleteBody (fun _ => .error ()) (fun _ => true) [("$id", "A")] [] = .error () ∧
    deleteAction (fun _ => .error ()) (fun _ => true) [("$id", "A")] [] = [] :=
  ⟨rfl,
    (no_exception_crosses_mutation_boundaries.1 (fun _ => .error ()) (fun _ => true)
      [("$id", "A")] []).1 rfl⟩

/-! ## Lazy singleton initialization (source lines 276-345 and getters 148-162, 201-219)

The `init` action arms `state.accountInit` with `once(() => dispatch("accountInit"))`
when a mnemonic is present (and `state.identityInit` likewise when an
identity id is present).  Reading the `account` getter returns the wrapped
resource when present and synced, otherwise invokes the armed trigger (whose
lodash `once` guard makes every invocation after the first a no-op) and
returns `null`.  The `accountInit` action counts one remote fetch attempt;
on success it stores the resource, clears the trigger and stamps `Synced`
once.  (The `TRANSACTION` listener that re-stamps `Synced` on external wallet
activity is an external event source, not a trigger invocation, and is not
modelled here.)  `fetchCalls` and `syncedStamps` are instrumentation
counters. -/

/-- Sync state of one singleton resource (account or identity). -/
structure SingletonState where
  resource : Bool
  initArmed : Bool
  onceFired : Bool
  synced : Bool
  syncing : Bool
  fetchCalls : Nat
  syncedStamps : Nat
  deriving DecidableEq, Repr

/-- The `accountInit` action (source lines 309-327): set `accountSyncing`,
attempt the remote fetch (`fetchOk` tells whether `getWalletAccount`
resolves), and on success store the wrapped account, null out the trigger
and stamp `accountSynced`; on failure just log.  Either way clear
`accountSyncing`. -/
def accountInitAction (fetchOk : Bool) (s : SingletonState) : SingletonState :=
  let s1 := { s with syncing := true, fetchCalls := s.fetchCalls + 1 }
  if fetchOk then
    { s1 with
      resource := true
      initArmed := false
      synced := true
      syncedStamps := s1.syncedStamps + 1
      syncing := false }
  else { s1 with syncing := false }

/-- Invoking `state.accountInit()`: the lodash `once` wrapper dispatches
`accountInit` on the first invocation only. -/
def invokeAccountTrigger (fetchOk : Bool) (s : SingletonState) : SingletonState :=
  if s.onceFired then s
  else accountInitAction fetchOk { s with onceFired := true }

/-- The `account` getter (source lines 148-162): return the resource when
present and synced; otherwise invoke the armed trigger (if any) as a side
effect and return `null` (`false` here). -/
def readAccount (fetchOk : Bool) (s : SingletonState) : SingletonState × Bool :=
  if s.resource && s.synced then (s, true)
  else if s.initArmed then (invokeAccountTrigger fetchOk s, false)
  else (s, false)

/-- The `identityInit` action (source lines 329-345): like `accountInit`
without the transaction listener. -/
def identityInitAction (fetchOk : Bool) (s : SingletonState) : SingletonState :=
  let s1 := { s with syncing := true, fetchCalls := s.fetchCalls + 1 }
  if fetchOk then
    { s1 with
      resource := true
      initArmed := false
      synced := true
      syncedStamps := s1.syncedStamps + 1
      syncing := false }
  else { s1 with syncing := false }

/-- Invoking `state.identityInit()` through its `once` wrapper. -/
def invokeIdentityTrigger (fetchOk : Bool) (s : SingletonState) : SingletonState :=
  if s.onceFired then s
  else identityInitAction fetchOk { s with onceFired := true }

/-- The `identity` getter (source lines 201-219): additionally gated on
`options.identityId` being present. -/
def readIdentity (idPresent fetchOk : Bool) (s : SingletonState) : SingletonState × Bool :=
  if s.resource && s.synced then (s, true)
  else if idPresent && s.initArmed then (invokeIdentityTrigger fetchOk s, false)
  else (s, false)

/-- State right after the `init` action armed a fresh `once` trigger for a
resource (source lines 288-306): everything reset, trigger armed, not yet
fired. -/
def armedInit : SingletonState := ⟨false, true, false, false, false, 0, 0⟩

/-- `n` successive reads of the `account` getter. -/
def readAccountN (fetchOk : Bool) : Nat → SingletonState → SingletonState
  | 0, s => s
  | n + 1, s => readAccountN fetchOk n (readAccount fetchOk s).1

/-- `n` successive reads of the `identity` getter. -/
def readIdentityN (idPresent fetchOk : Bool) : Nat → SingletonState → SingletonState
  | 0, s => s
  | n + 1, s => readIdentityN idPresent fetchOk n (readIdentity idPresent fetchOk s).1

theorem readAccount_settled (fetchOk : Bool) :
    (readAccount fetchOk (readAccount fetchOk armedInit).1).1 =
      (readAccount fetchOk armedInit).1 := by
  cases fetchOk <;> rfl

theorem readAccountN_settled (fetchOk : Bool) (n : Nat) :
    readAccountN fetchOk n (readAccount fetchOk armedInit).1 =
      (readAccount fetchOk armedInit).1 := by
  induction n with
  | zero => rfl
  | succ n ih =>
    simp only [readAccountN, readAccount_settled]
    exact ih

theorem readIdentity_settled (fetchOk : Bool) :
    (readIdentity true fetchOk (readIdentity true fetchOk armedInit).1).1 =
      (readIdentity true fetchOk armedInit).1 := by
  cases fetchOk <;> rfl

theorem readIdentityN_settled (fetchOk : Bool) (n : Nat) :
    readIdentityN true fetchOk n (readIdentity true fetchOk armedInit).1 =
      (readIdentity true fetchOk armedInit).1 := by
  induction n with
  | zero => rfl
  | succ n ih =>
    simp only [readIdentityN, readIdentity_settled]
    exact ih

/-- Claim C8: for each singleton resource (account, identity), the armed
initialization trigger is single-execution: any positive number of getter
reads from the armed state performs exactly one remote fetch attempt and
exactly one `Synced` stamp when the fetch succeeds (and none when it fails,
the single attempt still being the only one); moreover a getter read never
arms a trigger (arming is idempotent under repeated read access — only the
`init` action installs a trigger, and a resource holds at most one armed
trigger at a time since it lives in a single state field). -/
theorem singleton_trigger_fires_once :
    (∀ (fetchOk : Bool) (n : Nat), 0 < n →
      (readAccountN fetchOk n armedInit).fetchCalls = 1 ∧
      (readAccountN fetchOk n armedInit).syncedStamps = (if fetchOk then 1 else 0) ∧
      (readIdentityN true fetchOk n armedInit).fetchCalls = 1 ∧
      (readIdentityN true fetchOk n armedInit).syncedStamps = (if fetchOk then 1 else 0)) ∧
    (∀ (fetchOk : Bool) (s : SingletonState),
      ((readAccount fetchOk s).1.initArmed = true → s.initArmed = true) ∧
      ∀ idPresent : Bool,
        ((readIdentity idPresent fetchOk s).1.initArmed = true → s.initArmed = true)) := by
  constructor
  · intro fetchOk n hn
    obtain ⟨k, rfl⟩ : ∃ k, n = k + 1 := ⟨n - 1, by omega⟩
    have ha : readAccountN fetchOk (k + 1) armedInit =
        (readAccount fetchOk armedInit).1 := by
      simp only [readAccountN]
      exact readAccountN_settled fetchOk k
    have hi : readIdentityN true fetchOk (k + 1) armedInit =
        (readIdentity true fetchOk armedInit).1 := by
      simp only [readIdentityN]
      exact readIdentityN_settled fetchOk k
    rw [ha, hi]
    cases fetchOk <;> refine ⟨rfl, rfl, rfl, rfl⟩
  · intro fetchOk s
    constructor
    · intro h
      by_cases h1 : s.resource && s.synced
      · simpa [readAccount, h1] using h
      · by_cases h2 : s.initArmed
        · exact h2
        · rw [readAccount] at h
          simp [h1, h2] at h
    · intro idPresent h
      by_cases h1 : s.resource && s.synced
      · simpa [readIdentity, h1] using h
      · by_cases h2 : idPresent && s.initArmed
        · exact (Bool.and_eq_true idPresent s.initArmed).mp h2 |>.2
        · simpa [readIdentity, h1, h2] using h

/-- Witness for claim C8: three reads with a succeeding fetch perform one
fetch and one stamp on both resources. -/
theorem singleton_trigger_fires_once_witness :
    (0 < 3) ∧
    (readAccountN true 3 armedInit).fetchCalls = 1 ∧
    (readAccountN true 3 armedInit).syncedStamps = (if true then 1 else 0) ∧
    (readIdentityN true true 3 armedInit).fetchCalls = 1 ∧
    (readIdentityN true true 3 armedInit).syncedStamps = (if true then 1 else 0) :=
  ⟨by decide, singleton_trigger_fires_once.1 true 3 (by decide)⟩

end VuexDashDpp
